import Mathlib

/-!
Verification of the explanation-adapter core of the interpret-community
notebook repository: a FeatureMap mapping raw input features to engineered
feature indices, and an Explanation adapter aggregating raw attribution
arrays to global/local importance scores with deterministic ranked queries.
The repository's notebooks only call this adapter; its behaviour is modelled
here from the repository's specification. Attribution values are modelled as
rationals.
-/

namespace InterpretCommunity

/-- Modelled from the spec: the error kinds of the core, raised by FeatureMap
construction (ConfigurationError), adapter construction on inconsistent array
shapes (ShapeMismatchError), and queries not applicable to the Explanation's
populated components (UnsupportedOperationError). The implementation
(interpret_community.adapter) is not under src/; only notebook callers are. -/
inductive ExplanationError where
  | ConfigurationError
  | ShapeMismatchError
  | UnsupportedOperationError
deriving DecidableEq

/-- Modelled from the spec: a FeatureMap group has a raw feature name and an
ordered sequence of engineered-feature indices it owns. -/
structure FeatureGroup where
  name : String
  indices : List ℕ
deriving DecidableEq

/-- Modelled from the spec: a FeatureMap is an ordered sequence of groups. -/
structure FeatureMap where
  groups : List FeatureGroup
deriving DecidableEq

/-- Total engineered width of a FeatureMap: the number of engineered indices
owned across all groups. -/
def FeatureMap.totalWidth (fm : FeatureMap) : ℕ :=
  (fm.groups.map (fun g => g.indices.length)).sum

/-- The ordered raw feature names of a FeatureMap. -/
def FeatureMap.rawNames (fm : FeatureMap) : List String :=
  fm.groups.map (fun g => g.name)

/-- Modelled from the spec: replaying the transformation description's fitted
output-width metadata, assigning each (raw feature, output width) pair the
next consecutive block of engineered indices starting at `start`. -/
def assignGroups : List (String × ℕ) → ℕ → List FeatureGroup
  | [], _ => []
  | (nm, w) :: rest, start => ⟨nm, List.range' start w⟩ :: assignGroups rest (start + w)

/-- Modelled from the spec: FeatureMap construction from the ordered raw
feature names, a transformation description (list of raw feature / fitted
output width pairs), and the attribution array's feature dimension; fails
with ConfigurationError if any raw feature is unaccounted for or the total
computed width does not match the attribution feature dimension. -/
def buildFeatureMap (names : List String) (transformDesc : List (String × ℕ))
    (attributionDim : ℕ) : Except ExplanationError FeatureMap :=
  if ∀ nm ∈ names, nm ∈ transformDesc.map Prod.fst then
    if (transformDesc.map Prod.snd).sum = attributionDim then
      .ok ⟨assignGroups transformDesc 0⟩
    else .error .ConfigurationError
  else .error .ConfigurationError

/-- Modelled from the spec: a RawAttribution is a 2-D numeric array
(instances by engineered features), or a 3-D array when per-class
attributions exist (classes by instances by engineered features). -/
inductive RawAttribution where
  | twoD (data : List (List ℚ))
  | threeD (data : List (List (List ℚ)))
deriving DecidableEq

/-- Number of instances of a RawAttribution. -/
def RawAttribution.numInstances : RawAttribution → ℕ
  | .twoD data => data.length
  | .threeD data => (data.headD []).length

/-- Whether every per-instance attribution row has feature dimension `w`. -/
def RawAttribution.featureDimEq : RawAttribution → ℕ → Bool
  | .twoD data, w => data.all (fun row => row.length == w)
  | .threeD data, w => data.all (fun cls => cls.all (fun row => row.length == w))

/-- Whether every class slice of a RawAttribution has the same instance
count (vacuously true for the 2-D case). -/
def RawAttribution.instancesConsistent : RawAttribution → Bool
  | .twoD _ => true
  | .threeD data => data.all (fun cls => cls.length == (data.headD []).length)

/-- Modelled from the spec: the local importance a single group contributes
for one instance row: the sum over the group's engineered indices of the
absolute attribution values. -/
def groupLocalImportance (row : List ℚ) (g : FeatureGroup) : ℚ :=
  (g.indices.map (fun i => |row.getD i 0|)).sum

/-- Per-instance local importance row over raw features: one aggregated
absolute value per FeatureMap group. -/
def localRow (fm : FeatureMap) (row : List ℚ) : List ℚ :=
  fm.groups.map (groupLocalImportance row)

/-- Local importance matrix: instances by raw features. -/
def localMatrix (fm : FeatureMap) (data : List (List ℚ)) : List (List ℚ) :=
  data.map (localRow fm)

/-- Unweighted arithmetic mean of each of the first `k` columns over the
rows of a matrix. -/
def columnMean (rows : List (List ℚ)) (k : ℕ) : List ℚ :=
  (List.range k).map (fun j => (rows.map (fun r => r.getD j 0)).sum / (rows.length : ℚ))

/-- Modelled from the spec: global importance per raw feature, the
unweighted arithmetic mean over instances of the per-instance local
importance rows. -/
def globalFromLocal (fm : FeatureMap) (data : List (List ℚ)) : List ℚ :=
  columnMean (localMatrix fm data) fm.groups.length

/-- Shape of the per-instance data held by an Explanation: plain
per-instance rows, or per-class per-instance rows when a class dimension is
present. -/
inductive LocalShaped (α : Type) where
  | perInstance (rows : List (List α))
  | perClassInstance (classes : List (List (List α)))
deriving DecidableEq

/-- Modelled from the spec: an Explanation is a read-only view holding the
raw feature names, the global importance per raw feature, the per-class
global importance when a class dimension is present, and the local
importance per instance per raw feature. -/
structure Explanation where
  featureNames : List String
  globalImportances : Option (List ℚ)
  perClassImportances : Option (List (List ℚ))
  localImportances : Option (LocalShaped ℚ)
deriving DecidableEq

/-- Whether the supplied evaluation examples (if any) agree with the
attribution's instance count. -/
def evalRowsOk (att : RawAttribution) : Option (List (List ℚ)) → Bool
  | none => true
  | some ex => ex.length == att.numInstances

/-- Modelled from the spec: createGlobal. Fails fast with
ShapeMismatchError if the attribution feature dimension does not equal the
FeatureMap's total engineered width, or if the supplied evaluation examples
disagree with the attribution row count; otherwise builds an Explanation
with global (and, for 3-D input, per-class) and local components. -/
def createGlobal (att : RawAttribution) (fm : FeatureMap)
    (evaluationExamples : Option (List (List ℚ))) : Except ExplanationError Explanation :=
  if ¬ (att.featureDimEq fm.totalWidth && att.instancesConsistent) then
    .error .ShapeMismatchError
  else if ¬ evalRowsOk att evaluationExamples then
    .error .ShapeMismatchError
  else
    match att with
    | .twoD data =>
        .ok { featureNames := fm.rawNames
              globalImportances := some (globalFromLocal fm data)
              perClassImportances := none
              localImportances := some (.perInstance (localMatrix fm data)) }
    | .threeD data =>
        let perClass := data.map (fun cls => globalFromLocal fm cls)
        .ok { featureNames := fm.rawNames
              globalImportances := some (columnMean perClass fm.groups.length)
              perClassImportances := some perClass
              localImportances := some (.perClassInstance (data.map (localMatrix fm))) }

/-- Modelled from the spec: the shape consistency demanded of a
createGlobal call, stated in spec terms: every attribution row has the
FeatureMap's total engineered width, the class slices (when present) agree
on the instance count, and the evaluation examples (when supplied) have one
row per attribution instance. -/
def shapeOk (att : RawAttribution) (fm : FeatureMap)
    (ex : Option (List (List ℚ))) : Prop :=
  (match att with
   | .twoD data => ∀ r ∈ data, r.length = fm.totalWidth
   | .threeD data =>
       (∀ cls ∈ data, ∀ r ∈ cls, r.length = fm.totalWidth) ∧
       ∀ cls ∈ data, cls.length = (data.headD []).length) ∧
  ∀ exm, ex = some exm → exm.length = att.numInstances

/-- Ranking order on (original index, importance value) pairs: descending by
absolute value, ties broken by the original raw-feature order. -/
def absDesc (a b : ℕ × ℚ) : Prop :=
  |b.2| < |a.2| ∨ (|a.2| = |b.2| ∧ a.1 ≤ b.1)

instance : DecidableRel absDesc := fun a b => by
  unfold absDesc; infer_instance

instance : IsTotal (ℕ × ℚ) absDesc where
  total a b := by
    unfold absDesc
    rcases lt_trichotomy |a.2| |b.2| with h | h | h
    · exact .inr (.inl h)
    · rcases Nat.le_total a.1 b.1 with h1 | h1
      · exact .inl (.inr ⟨h, h1⟩)
      · exact .inr (.inr ⟨h.symm, h1⟩)
    · exact .inl (.inl h)

instance : IsTrans (ℕ × ℚ) absDesc where
  trans a b c hab hbc := by
    unfold absDesc at *
    rcases hab with h1 | ⟨e1, l1⟩
    · rcases hbc with h2 | ⟨e2, _⟩
      · exact .inl (h2.trans h1)
      · exact .inl (e2 ▸ h1)
    · rcases hbc with h2 | ⟨e2, l2⟩
      · exact .inl (lt_of_lt_of_le h2 e1.ge)
      · exact .inr ⟨e1.trans e2, l1.trans l2⟩

/-- The importance values of a row paired with their original indices,
stably sorted descending by absolute value. -/
def rankedPairs (vals : List ℚ) : List (ℕ × ℚ) :=
  List.insertionSort absDesc vals.enum

/-- The ranked (descending absolute) importance values of a row. -/
def rankValuesRow (vals : List ℚ) : List ℚ :=
  (rankedPairs vals).map (fun p => p.2)

/-- The raw feature names listed in the ranked order of a row. -/
def rankNamesRow (names : List String) (vals : List ℚ) : List String :=
  (rankedPairs vals).map (fun p => names.getD p.1 "")

/-- Modelled from the spec: getRankedGlobalValues, descending by absolute
global importance, ties broken by original raw-feature order; fails with
UnsupportedOperationError when no global component is populated. -/
def Explanation.getRankedGlobalValues (e : Explanation) :
    Except ExplanationError (List ℚ) :=
  match e.globalImportances with
  | none => .error .UnsupportedOperationError
  | some vals => .ok (rankValuesRow vals)

/-- Modelled from the spec: getRankedGlobalNames, the raw feature names in
the same order as getRankedGlobalValues. -/
def Explanation.getRankedGlobalNames (e : Explanation) :
    Except ExplanationError (List String) :=
  match e.globalImportances with
  | none => .error .UnsupportedOperationError
  | some vals => .ok (rankNamesRow e.featureNames vals)

/-- Modelled from the spec: getRankedPerClassValues, the same ranking rule
applied independently per class; fails with UnsupportedOperationError when
no class dimension exists. -/
def Explanation.getRankedPerClassValues (e : Explanation) :
    Except ExplanationError (List (List ℚ)) :=
  match e.perClassImportances with
  | none => .error .UnsupportedOperationError
  | some rows => .ok (rows.map rankValuesRow)

/-- Modelled from the spec: getRankedPerClassNames, per-class ranked raw
feature names; fails with UnsupportedOperationError when no class dimension
exists. -/
def Explanation.getRankedPerClassNames (e : Explanation) :
    Except ExplanationError (List (List String)) :=
  match e.perClassImportances with
  | none => .error .UnsupportedOperationError
  | some rows => .ok (rows.map (rankNamesRow e.featureNames))

/-- Modelled from the spec: getRankedLocalValues, the ranking rule applied
to each instance's local importance row (per class when a class dimension is
present); fails with UnsupportedOperationError when no local component. -/
def Explanation.getRankedLocalValues (e : Explanation) :
    Except ExplanationError (LocalShaped ℚ) :=
  match e.localImportances with
  | none => .error .UnsupportedOperationError
  | some (.perInstance rows) => .ok (.perInstance (rows.map rankValuesRow))
  | some (.perClassInstance classes) =>
      .ok (.perClassInstance (classes.map (fun cls => cls.map rankValuesRow)))

/-- Modelled from the spec: getRankedLocalNames, the raw feature names in
each instance's ranked order. -/
def Explanation.getRankedLocalNames (e : Explanation) :
    Except ExplanationError (LocalShaped String) :=
  match e.localImportances with
  | none => .error .UnsupportedOperationError
  | some (.perInstance rows) =>
      .ok (.perInstance (rows.map (rankNamesRow e.featureNames)))
  | some (.perClassInstance classes) =>
      .ok (.perClassInstance (classes.map (fun cls => cls.map (rankNamesRow e.featureNames))))

/-- The original feature indices in ranked order. -/
def rankOrder (vals : List ℚ) : List ℕ :=
  (rankedPairs vals).map (fun p => p.1)

/-- Modelled from the spec: globalImportanceRank, giving for each raw
feature in its original input order its 1-based rank by global
importance. -/
def Explanation.globalImportanceRank (e : Explanation) :
    Except ExplanationError (List ℕ) :=
  match e.globalImportances with
  | none => .error .UnsupportedOperationError
  | some vals =>
      .ok ((List.range vals.length).map (fun i => (rankOrder vals).indexOf i + 1))

/-- Concrete 2-instance, 3-feature attribution array used in the
round-trip scenario. -/
def data2 : List (List ℚ) := [[1, -2, 3], [0, 4, -1]]

/-- Concrete 2-class, 2-instance, 3-feature attribution array. -/
def data3 : List (List (List ℚ)) := [[[1, -2, 3], [0, 4, -1]], [[2, 0, 1], [1, 1, 1]]]

/-- Concrete FeatureMap over raw features A, B, C, each mapped to one
engineered column. -/
def fmABC : FeatureMap := ⟨[⟨"A", [0]⟩, ⟨"B", [1]⟩, ⟨"C", [2]⟩]⟩

/-- The Explanation createGlobal builds from the 2-D example data. -/
def expABC : Explanation :=
  { featureNames := fmABC.rawNames
    globalImportances := some (globalFromLocal fmABC data2)
    perClassImportances := none
    localImportances := some (.perInstance (localMatrix fmABC data2)) }

/-- The Explanation createGlobal builds from the 3-D (per-class) example
data. -/
def expABC3 : Explanation :=
  { featureNames := fmABC.rawNames
    globalImportances :=
      some (columnMean (data3.map (fun cls => globalFromLocal fmABC cls)) fmABC.groups.length)
    perClassImportances := some (data3.map (fun cls => globalFromLocal fmABC cls))
    localImportances := some (.perClassInstance (data3.map (localMatrix fmABC))) }

/- Helper lemmas shared by the claim theorems. -/

theorem rankedPairs_sorted (vals : List ℚ) : List.Sorted absDesc (rankedPairs vals) :=
  List.sorted_insertionSort absDesc vals.enum

theorem rankedPairs_perm (vals : List ℚ) : List.Perm (rankedPairs vals) vals.enum :=
  List.perm_insertionSort absDesc vals.enum

theorem rankedPairs_length (vals : List ℚ) : (rankedPairs vals).length = vals.length := by
  rw [(rankedPairs_perm vals).length_eq, List.enum_length]

theorem mem_rankedPairs (vals : List ℚ) (p : ℕ × ℚ) (hp : p ∈ rankedPairs vals) :
    p.1 < vals.length ∧ vals.getD p.1 0 = p.2 := by
  have hmem : p ∈ vals.enum := (rankedPairs_perm vals).mem_iff.mp hp
  have h2 := List.mem_enum_iff_getElem?.mp hmem
  rcases List.getElem?_eq_some.mp h2 with ⟨hlt, hval⟩
  exact ⟨hlt, by rw [List.getD_eq_getElem vals 0 hlt, hval]⟩

theorem rankOrder_perm (vals : List ℚ) : List.Perm (rankOrder vals) (List.range vals.length) := by
  have h1 : rankOrder vals = (rankedPairs vals).map Prod.fst := rfl
  have h2 := (rankedPairs_perm vals).map Prod.fst
  rw [List.enum_map_fst] at h2
  rw [h1]; exact h2

theorem rankOrder_length (vals : List ℚ) : (rankOrder vals).length = vals.length := by
  rw [(rankOrder_perm vals).length_eq, List.length_range]

theorem rankOrder_nodup (vals : List ℚ) : (rankOrder vals).Nodup :=
  ((rankOrder_perm vals).nodup_iff).mpr (List.nodup_range _)

theorem createGlobal_twoD_ok (data : List (List ℚ)) (fm : FeatureMap)
    (ex : Option (List (List ℚ))) (e : Explanation)
    (h : createGlobal (.twoD data) fm ex = .ok e) :
    e = { featureNames := fm.rawNames
          globalImportances := some (globalFromLocal fm data)
          perClassImportances := none
          localImportances := some (.perInstance (localMatrix fm data)) } := by
  unfold createGlobal at h
  split at h
  · exact Except.noConfusion h
  · split at h
    · exact Except.noConfusion h
    · exact (Except.ok.inj h).symm

theorem createGlobal_threeD_ok (data : List (List (List ℚ))) (fm : FeatureMap)
    (ex : Option (List (List ℚ))) (e : Explanation)
    (h : createGlobal (.threeD data) fm ex = .ok e) :
    e = { featureNames := fm.rawNames
          globalImportances :=
            some (columnMean (data.map (fun cls => globalFromLocal fm cls)) fm.groups.length)
          perClassImportances := some (data.map (fun cls => globalFromLocal fm cls))
          localImportances := some (.perClassInstance (data.map (localMatrix fm))) } := by
  unfold createGlobal at h
  split at h
  · exact Except.noConfusion h
  · split at h
    · exact Except.noConfusion h
    · exact (Except.ok.inj h).symm

theorem rankValuesRow_length (vals : List ℚ) : (rankValuesRow vals).length = vals.length := by
  simp [rankValuesRow, rankedPairs_length]

theorem rankNamesRow_length (names : List String) (vals : List ℚ) :
    (rankNamesRow names vals).length = vals.length := by
  simp [rankNamesRow, rankedPairs_length]

theorem globalFromLocal_length (fm : FeatureMap) (data : List (List ℚ)) :
    (globalFromLocal fm data).length = fm.groups.length := by
  simp [globalFromLocal, columnMean]

/-- C1: for a 2-D RawAttribution and a FeatureMap, createGlobal computes the
global importance of each raw-feature group as the unweighted arithmetic
mean over instances of the sum, over the group's engineered indices, of the
absolute attribution values; a group of width k thus contributes the sum of
the k absolute values per instance and a width-1 group a single absolute
value, with no normalization applied. -/
theorem createGlobal_global_is_mean_abs (data : List (List ℚ)) (fm : FeatureMap)
    (ex : Option (List (List ℚ))) (e : Explanation) (gv : List ℚ)
    (h : createGlobal (.twoD data) fm ex = .ok e)
    (hg : e.globalImportances = some gv) :
    gv.length = fm.groups.length ∧
    ∀ j, j < fm.groups.length →
      gv.getD j 0 =
        (data.map (fun row =>
          ((fm.groups.getD j ⟨"", []⟩).indices.map (fun idx => |row.getD idx 0|)).sum)).sum
          / (data.length : ℚ) := by
  have he := createGlobal_twoD_ok data fm ex e h
  subst he
  simp only [Explanation.globalImportances, Option.some.injEq] at hg
  subst hg
  refine ⟨globalFromLocal_length fm data, ?_⟩
  intro j hj
  have hj' : j < (List.range fm.groups.length).length := by simpa using hj
  simp only [globalFromLocal, columnMean, localMatrix]
  rw [List.getD_eq_getElem _ 0 (by simpa using hj), List.getElem_map, List.getElem_range,
    List.map_map, List.length_map]
  congr 1
  refine congrArg List.sum (List.map_congr_left ?_)
  intro row _
  simp only [Function.comp_apply, localRow]
  rw [List.getD_eq_getElem _ 0 (by simpa using hj), List.getElem_map,
    List.getD_eq_getElem _ _ hj]
  rfl

/-- C7: for raw features A, B, C each mapped to a single engineered column
and the 2-instance attribution array [[1,-2,3],[0,4,-1]], createGlobal
yields global importances A = 1/2, B = 3, C = 2, so the ranked global values
are [3, 2, 1/2] with ranked names [B, C, A]. -/
theorem round_trip_ABC :
    buildFeatureMap ["A", "B", "C"] [("A", 1), ("B", 1), ("C", 1)] 3 = .ok fmABC ∧
    createGlobal (.twoD data2) fmABC none = .ok expABC ∧
    expABC.globalImportances = some [1/2, 3, 2] ∧
    expABC.getRankedGlobalValues = .ok [3, 2, 1/2] ∧
    expABC.getRankedGlobalNames = .ok ["B", "C", "A"] := by
  refine ⟨?_, rfl, ?_, ?_, ?_⟩
  · norm_num [buildFeatureMap, assignGroups, fmABC, List.range']
  · show some (globalFromLocal fmABC data2) = _
    norm_num [globalFromLocal, columnMean, localMatrix, localRow, groupLocalImportance,
      fmABC, data2, List.range, List.range.loop]
  · show Except.ok (rankValuesRow (globalFromLocal fmABC data2)) = _
    norm_num [globalFromLocal, columnMean, localMatrix, localRow, groupLocalImportance,
      fmABC, data2, List.range, List.range.loop, rankValuesRow, rankedPairs, List.enum,
      List.enumFrom, List.insertionSort, List.orderedInsert, absDesc, abs_div]
  · show Except.ok (rankNamesRow expABC.featureNames (globalFromLocal fmABC data2)) = _
    norm_num [globalFromLocal, columnMean, localMatrix, localRow, groupLocalImportance,
      fmABC, data2, List.range, List.range.loop, rankNamesRow, rankedPairs, List.enum,
      List.enumFrom, List.insertionSort, List.orderedInsert, absDesc, abs_div, expABC,
      FeatureMap.rawNames]

/-- C8: for a 2-D RawAttribution of matching width and a FeatureMap over m
raw features, the Explanation produced by createGlobal has exactly m global
importance values and m raw feature names, and the ranked values and ranked
names both have length m. -/
theorem createGlobal_counts (data : List (List ℚ)) (fm : FeatureMap)
    (ex : Option (List (List ℚ))) (e : Explanation)
    (h : createGlobal (.twoD data) fm ex = .ok e) :
    e.featureNames.length = fm.groups.length ∧
    (∃ gv, e.globalImportances = some gv ∧ gv.length = fm.groups.length) ∧
    ∃ rv rn, e.getRankedGlobalValues = .ok rv ∧ e.getRankedGlobalNames = .ok rn ∧
      rv.length = fm.groups.length ∧ rn.length = fm.groups.length := by
  have he := createGlobal_twoD_ok data fm ex e h
  subst he
  refine ⟨by simp [FeatureMap.rawNames], ⟨_, rfl, globalFromLocal_length fm data⟩,
    rankValuesRow (globalFromLocal fm data), rankNamesRow fm.rawNames (globalFromLocal fm data),
    rfl, rfl, ?_, ?_⟩
  · rw [rankValuesRow_length, globalFromLocal_length]
  · rw [rankNamesRow_length, globalFromLocal_length]

/-- C9: ranking queries are deterministic functions of the immutable
RawAttribution and FeatureMap inputs: any two Explanations produced by the
same createGlobal call return identical ranked global value sequences, and
repeated queries on one Explanation agree. -/
theorem getRankedGlobalValues_deterministic (att : RawAttribution) (fm : FeatureMap)
    (ex : Option (List (List ℚ))) (e e' : Explanation)
    (h : createGlobal att fm ex = .ok e) (h' : createGlobal att fm ex = .ok e') :
    e.getRankedGlobalValues = e'.getRankedGlobalValues ∧
    e.getRankedGlobalValues = e.getRankedGlobalValues := by
  rw [h] at h'
  rw [Except.ok.inj h']
  exact ⟨rfl, rfl⟩

/-- C10: an Explanation built by createGlobal from a per-instance (2-D or
3-D) RawAttribution has its local component populated: getRankedLocalValues
and getRankedLocalNames succeed on it and return one ranked row per instance
(per class, when a class dimension is present). -/
theorem createGlobal_populates_local (att : RawAttribution) (fm : FeatureMap)
    (ex : Option (List (List ℚ))) (e : Explanation)
    (h : createGlobal att fm ex = .ok e) :
    (∀ data, att = .twoD data →
      ∃ rows nrows, e.getRankedLocalValues = .ok (.perInstance rows) ∧
        e.getRankedLocalNames = .ok (.perInstance nrows) ∧
        rows.length = data.length ∧ nrows.length = data.length) ∧
    (∀ data, att = .threeD data →
      ∃ cls ncls, e.getRankedLocalValues = .ok (.perClassInstance cls) ∧
        e.getRankedLocalNames = .ok (.perClassInstance ncls) ∧
        cls.length = data.length ∧ ncls.length = data.length ∧
        (∀ k, k < data.length → (cls.getD k []).length = (data.getD k []).length) ∧
        (∀ k, k < data.length → (ncls.getD k []).length = (data.getD k []).length)) := by
  constructor
  · rintro data rfl
    have he := createGlobal_twoD_ok data fm ex e h
    subst he
    exact ⟨_, _, rfl, rfl, by simp [localMatrix], by simp [localMatrix]⟩
  · rintro data rfl
    have he := createGlobal_threeD_ok data fm ex e h
    subst he
    refine ⟨_, _, rfl, rfl, by simp, by simp, ?_, ?_⟩
    · intro k hk
      rw [List.getD_eq_getElem _ _ (by simpa using hk), List.getElem_map,
        List.getD_eq_getElem _ _ hk]
      simp [localMatrix]
    · intro k hk
      rw [List.getD_eq_getElem _ _ (by simpa using hk), List.getElem_map,
        List.getD_eq_getElem _ _ hk]
      simp [localMatrix]

theorem assignGroups_join (desc : List (String × ℕ)) (s : ℕ) :
    ((assignGroups desc s).map (fun g => g.indices)).flatten
      = List.range' s (desc.map Prod.snd).sum := by
  induction desc generalizing s with
  | nil => simp [assignGroups]
  | cons p rest ih =>
      obtain ⟨nm, w⟩ := p
      simp only [assignGroups, List.map_cons, List.flatten_cons, ih, List.sum_cons]
      rw [List.range'_append_1, Nat.add_comm]

theorem assignGroups_totalWidth (desc : List (String × ℕ)) (s : ℕ) :
    FeatureMap.totalWidth ⟨assignGroups desc s⟩ = (desc.map Prod.snd).sum := by
  induction desc generalizing s with
  | nil => simp [assignGroups, FeatureMap.totalWidth]
  | cons p rest ih =>
      obtain ⟨nm, w⟩ := p
      simp only [assignGroups, FeatureMap.totalWidth, List.map_cons, List.sum_cons,
        List.length_range'] at ih ⊢
      rw [ih]

/-- C6: every successfully constructed FeatureMap satisfies the partition
invariant: the concatenation of the groups' engineered-index sequences is
exactly 0..totalWidth-1 (no gaps, duplicates, or overlaps), with the total
width matching the attribution feature dimension; construction fails with
ConfigurationError if any raw feature is unaccounted for or if the total
computed width does not match the attribution feature dimension. -/
theorem buildFeatureMap_partition_invariant (names : List String)
    (desc : List (String × ℕ)) (dim : ℕ) :
    (∀ fm, buildFeatureMap names desc dim = .ok fm →
      (fm.groups.map (fun g => g.indices)).flatten = List.range fm.totalWidth ∧
      fm.totalWidth = dim) ∧
    ((∃ nm ∈ names, nm ∉ desc.map Prod.fst) →
      buildFeatureMap names desc dim = .error .ConfigurationError) ∧
    ((desc.map Prod.snd).sum ≠ dim →
      buildFeatureMap names desc dim = .error .ConfigurationError) := by
  refine ⟨?_, ?_, ?_⟩
  · intro fm h
    unfold buildFeatureMap at h
    split at h
    · split at h
      · have hfm := Except.ok.inj h
        subst hfm
        rename_i hdim
        constructor
        · rw [assignGroups_join, assignGroups_totalWidth, List.range_eq_range']
        · rw [assignGroups_totalWidth]; exact hdim
      · exact Except.noConfusion h
    · exact Except.noConfusion h
  · rintro ⟨nm, hmem, hnotin⟩
    unfold buildFeatureMap
    rw [if_neg]
    intro hall
    exact hnotin (hall nm hmem)
  · intro hne
    unfold buildFeatureMap
    by_cases hall : ∀ nm ∈ names, nm ∈ desc.map Prod.fst
    · rw [if_pos hall, if_neg hne]
    · rw [if_neg hall]

theorem rankValuesRow_pairwise (vals : List ℚ) :
    (rankValuesRow vals).Pairwise (fun a b => |b| ≤ |a|) := by
  have hs := rankedPairs_sorted vals
  unfold rankValuesRow
  refine List.Pairwise.map _ ?_ hs
  intro a b hab
  rcases hab with h | ⟨h, _⟩
  · exact le_of_lt h
  · exact le_of_eq h.symm

/-- C2: getRankedGlobalValues returns the global importance values in
non-increasing order of absolute value, with ties broken by original
raw-feature order (stable sort): at tied absolute values the earlier ranked
position carries the smaller original feature index; and for each position i
the i-th ranked name is the name of the raw feature whose global importance
equals the i-th ranked value. -/
theorem getRankedGlobal_sorted_correspond (e : Explanation) (vals : List ℚ)
    (rv : List ℚ) (rn : List String)
    (hg : e.globalImportances = some vals)
    (hv : e.getRankedGlobalValues = .ok rv)
    (hn : e.getRankedGlobalNames = .ok rn) :
    rv.Pairwise (fun a b => |b| ≤ |a|) ∧
    rn.length = rv.length ∧
    (∀ i, i < rv.length → ∃ j, j < vals.length ∧
      rn.getD i "" = e.featureNames.getD j "" ∧ rv.getD i 0 = vals.getD j 0) ∧
    (∀ i k, i < k → k < rv.length → |rv.getD i 0| = |rv.getD k 0| →
      (rankOrder vals).getD i 0 < (rankOrder vals).getD k 0) := by
  simp only [Explanation.getRankedGlobalValues, hg] at hv
  simp only [Explanation.getRankedGlobalNames, hg] at hn
  have hv' : rankValuesRow vals = rv := Except.ok.inj hv
  have hn' : rankNamesRow e.featureNames vals = rn := Except.ok.inj hn
  subst hv' hn'
  refine ⟨rankValuesRow_pairwise vals, by rw [rankValuesRow_length, rankNamesRow_length], ?_, ?_⟩
  · intro i hi
    have hi' : i < (rankedPairs vals).length := by
      rw [rankValuesRow_length] at hi
      rw [rankedPairs_length]
      exact hi
    have hpm : (rankedPairs vals)[i] ∈ rankedPairs vals := List.getElem_mem hi'
    obtain ⟨hj, hval⟩ := mem_rankedPairs vals _ hpm
    refine ⟨(rankedPairs vals)[i].1, hj, ?_, ?_⟩
    · show (rankNamesRow e.featureNames vals).getD i "" = _
      unfold rankNamesRow
      rw [List.getD_eq_getElem _ _ (by simpa using hi'), List.getElem_map]
    · show (rankValuesRow vals).getD i 0 = _
      unfold rankValuesRow
      rw [List.getD_eq_getElem _ _ (by simpa using hi'), List.getElem_map, ← hval]
  · intro i k hik hk habs
    have hk' : k < (rankedPairs vals).length := by
      rw [rankValuesRow_length] at hk
      rw [rankedPairs_length]
      exact hk
    have hi' : i < (rankedPairs vals).length := lt_trans hik hk'
    have hvi : (rankValuesRow vals).getD i 0 = (rankedPairs vals)[i].2 := by
      unfold rankValuesRow
      rw [List.getD_eq_getElem _ _ (by simpa using hi'), List.getElem_map]
    have hvk : (rankValuesRow vals).getD k 0 = (rankedPairs vals)[k].2 := by
      unfold rankValuesRow
      rw [List.getD_eq_getElem _ _ (by simpa using hk'), List.getElem_map]
    rw [hvi, hvk] at habs
    have hrel : absDesc ((rankedPairs vals).get ⟨i, hi'⟩) ((rankedPairs vals).get ⟨k, hk'⟩) :=
      List.pairwise_iff_get.mp (rankedPairs_sorted vals) ⟨i, hi'⟩ ⟨k, hk'⟩ hik
    have hoi : (rankOrder vals).getD i 0 = (rankedPairs vals)[i].1 := by
      unfold rankOrder
      rw [List.getD_eq_getElem _ _ (by simpa using hi'), List.getElem_map]
    have hok : (rankOrder vals).getD k 0 = (rankedPairs vals)[k].1 := by
      unfold rankOrder
      rw [List.getD_eq_getElem _ _ (by simpa using hk'), List.getElem_map]
    have hne : (rankedPairs vals)[i].1 ≠ (rankedPairs vals)[k].1 := by
      intro hcontra
      have hnd : ((rankedPairs vals).map Prod.fst).Nodup := rankOrder_nodup vals
      have hi2 : i < ((rankedPairs vals).map Prod.fst).length := by simpa using hi'
      have hk2 : k < ((rankedPairs vals).map Prod.fst).length := by simpa using hk'
      have h1 : ((rankedPairs vals).map Prod.fst)[i] =
          ((rankedPairs vals).map Prod.fst)[k] := by
        rw [List.getElem_map, List.getElem_map]
        exact hcontra
      have := List.Nodup.getElem_inj_iff hnd |>.mp h1
      omega
    rcases hrel with h | ⟨_, hle⟩
    · exact absurd habs (by simp only [List.get_eq_getElem] at h; exact ne_of_gt h)
    · rw [hoi, hok]
      simp only [List.get_eq_getElem] at hle
      omega

/-- C5: globalImportanceRank gives, for each raw feature in its original
input order, the feature's 1-based rank by global importance: it has one
entry per raw feature, is a permutation of 1..n, each entry lies between 1
and n, and the feature at original position i occupies position rank(i) - 1
of the ranked order, consistent with the stable sort. -/
theorem globalImportanceRank_is_rank (e : Explanation) (vals : List ℚ) (rks : List ℕ)
    (hg : e.globalImportances = some vals)
    (hr : e.globalImportanceRank = .ok rks) :
    rks.length = vals.length ∧
    List.Perm rks ((List.range vals.length).map (fun r => r + 1)) ∧
    ∀ i, i < vals.length →
      1 ≤ rks.getD i 0 ∧ rks.getD i 0 ≤ vals.length ∧
      (rankOrder vals).getD (rks.getD i 0 - 1) vals.length = i := by
  simp only [Explanation.globalImportanceRank, hg] at hr
  have hrks : (List.range vals.length).map (fun i => (rankOrder vals).indexOf i + 1) = rks :=
    Except.ok.inj hr
  subst hrks
  have hgetDidx : ∀ i ∈ List.range vals.length,
      (rankOrder vals).indexOf i < (rankOrder vals).length ∧
      ∀ d : ℕ, (rankOrder vals).getD ((rankOrder vals).indexOf i) d = i := by
    intro i hi
    have hmem : i ∈ rankOrder vals := (rankOrder_perm vals).mem_iff.mpr hi
    have hlt := List.indexOf_lt_length.mpr hmem
    refine ⟨hlt, fun d => ?_⟩
    rw [List.getD_eq_getElem _ _ hlt]
    exact List.getElem_indexOf hlt
  refine ⟨by simp, ?_, ?_⟩
  · have hmapperm : List.Perm
        ((List.range vals.length).map (fun i => (rankOrder vals).indexOf i))
        (List.range vals.length) := by
      apply List.Subperm.perm_of_length_le
      · apply List.subperm_of_subset
        · refine List.Nodup.map_on ?_ (List.nodup_range _)
          intro i hi j hj hij
          obtain ⟨_, ei⟩ := hgetDidx i hi
          obtain ⟨_, ej⟩ := hgetDidx j hj
          rw [← ei 0, ← ej 0, hij]
        · intro x hx
          rcases List.mem_map.mp hx with ⟨i, hi, rfl⟩
          obtain ⟨hlt, _⟩ := hgetDidx i hi
          rw [rankOrder_length] at hlt
          exact List.mem_range.mpr hlt
      · simp
    have := hmapperm.map (fun r => r + 1)
    rw [List.map_map] at this
    exact this
  · intro i hi
    have hi' : i ∈ List.range vals.length := List.mem_range.mpr hi
    obtain ⟨hlt, hval⟩ := hgetDidx i hi'
    have hrki : ((List.range vals.length).map
        (fun i => (rankOrder vals).indexOf i + 1)).getD i 0 =
        (rankOrder vals).indexOf i + 1 := by
      rw [List.getD_eq_getElem _ _ (by simpa using hi), List.getElem_map, List.getElem_range]
    rw [hrki]
    refine ⟨Nat.le_add_left 1 _, ?_, ?_⟩
    · rw [rankOrder_length] at hlt
      omega
    · simp only [Nat.add_sub_cancel]
      exact hval vals.length

/-- C4: per-class ranking queries raise UnsupportedOperationError on an
Explanation built by createGlobal without a class dimension, and when a
class dimension is present the same ranking rule (descending absolute value,
stable ties via the original-order comparison) is applied independently to
each class's importance row. -/
theorem perClass_query_requires_class_dim (fm : FeatureMap)
    (ex : Option (List (List ℚ))) (data2d : List (List ℚ))
    (data3d : List (List (List ℚ))) (e2 e3 : Explanation)
    (h2 : createGlobal (.twoD data2d) fm ex = .ok e2)
    (h3 : createGlobal (.threeD data3d) fm ex = .ok e3) :
    e2.getRankedPerClassValues = .error .UnsupportedOperationError ∧
    e2.getRankedPerClassNames = .error .UnsupportedOperationError ∧
    ∃ pcs, e3.perClassImportances = some pcs ∧ pcs.length = data3d.length ∧
      e3.getRankedPerClassValues = .ok (pcs.map rankValuesRow) ∧
      e3.getRankedPerClassNames = .ok (pcs.map (rankNamesRow e3.featureNames)) ∧
      ∀ cls ∈ pcs.map rankValuesRow, cls.Pairwise (fun a b => |b| ≤ |a|) := by
  have he2 := createGlobal_twoD_ok data2d fm ex e2 h2
  have he3 := createGlobal_threeD_ok data3d fm ex e3 h3
  subst he2 he3
  refine ⟨rfl, rfl, _, rfl, by simp, rfl, rfl, ?_⟩
  intro cls hcls
  rcases List.mem_map.mp hcls with ⟨v, _, rfl⟩
  exact rankValuesRow_pairwise v

/-- C3: createGlobal on a 2-D RawAttribution returns ShapeMismatchError
exactly when some attribution row's width differs from the FeatureMap's
total engineered width or the supplied evaluation examples' row count
differs from the attribution row count (so it never silently truncates or
pads), and the error arises at construction time: a successfully constructed
Explanation answers the global ranking query without error. -/
theorem createGlobal_shape_fail_fast (att : RawAttribution) (fm : FeatureMap)
    (ex : Option (List (List ℚ))) :
    (createGlobal att fm ex = .error .ShapeMismatchError ↔ ¬ shapeOk att fm ex) ∧
    ∀ e, createGlobal att fm ex = .ok e →
      ∃ rv, e.getRankedGlobalValues = .ok rv ∧ rv.length = fm.groups.length := by
  have hc : ((att.featureDimEq fm.totalWidth && att.instancesConsistent) = true ∧
      evalRowsOk att ex = true) ↔ shapeOk att fm ex := by
    cases att <;> cases ex <;>
      simp [shapeOk, RawAttribution.featureDimEq, RawAttribution.instancesConsistent,
        evalRowsOk, RawAttribution.numInstances, List.all_eq_true, and_assoc]
  constructor
  · constructor
    · intro herr hok
      rw [← hc] at hok
      obtain ⟨hA, hB⟩ := hok
      unfold createGlobal at herr
      rw [if_neg (not_not_intro hA), if_neg (not_not_intro hB)] at herr
      cases att
      · exact Except.noConfusion herr
      · exact Except.noConfusion herr
    · intro hnot
      rw [← hc, not_and_or] at hnot
      unfold createGlobal
      rcases hnot with hA | hB
      · rw [if_pos hA]
      · by_cases hA : (att.featureDimEq fm.totalWidth && att.instancesConsistent) = true
        · rw [if_neg (not_not_intro hA), if_pos hB]
        · rw [if_pos hA]
  · intro e he
    cases att with
    | twoD data =>
        have := createGlobal_twoD_ok data fm ex e he
        subst this
        exact ⟨_, rfl, by rw [rankValuesRow_length, globalFromLocal_length]⟩
    | threeD data =>
        have := createGlobal_threeD_ok data fm ex e he
        subst this
        exact ⟨_, rfl, by rw [rankValuesRow_length]; simp [columnMean]⟩

/-- Witness for C1: the mean-of-absolute-sums formula holds on the concrete
example adapter call. -/
theorem createGlobal_global_is_mean_abs_witness :
    (globalFromLocal fmABC data2).length = fmABC.groups.length ∧
    ∀ j, j < fmABC.groups.length →
      (globalFromLocal fmABC data2).getD j 0 =
        (data2.map (fun row =>
          ((fmABC.groups.getD j ⟨"", []⟩).indices.map (fun idx => |row.getD idx 0|)).sum)).sum
          / (data2.length : ℚ) :=
  createGlobal_global_is_mean_abs data2 fmABC none expABC (globalFromLocal fmABC data2) rfl rfl

/-- Witness for C2: the sortedness and name correspondence of the ranked
global query hold on the concrete example Explanation. -/
theorem getRankedGlobal_sorted_correspond_witness :
    (rankValuesRow (globalFromLocal fmABC data2)).Pairwise (fun a b => |b| ≤ |a|) ∧
    (rankNamesRow expABC.featureNames (globalFromLocal fmABC data2)).length =
      (rankValuesRow (globalFromLocal fmABC data2)).length ∧
    (∀ i, i < (rankValuesRow (globalFromLocal fmABC data2)).length →
      ∃ j, j < (globalFromLocal fmABC data2).length ∧
        (rankNamesRow expABC.featureNames (globalFromLocal fmABC data2)).getD i "" =
          expABC.featureNames.getD j "" ∧
        (rankValuesRow (globalFromLocal fmABC data2)).getD i 0 =
          (globalFromLocal fmABC data2).getD j 0) ∧
    (∀ i k, i < k → k < (rankValuesRow (globalFromLocal fmABC data2)).length →
      |(rankValuesRow (globalFromLocal fmABC data2)).getD i 0| =
        |(rankValuesRow (globalFromLocal fmABC data2)).getD k 0| →
      (rankOrder (globalFromLocal fmABC data2)).getD i 0 <
        (rankOrder (globalFromLocal fmABC data2)).getD k 0) :=
  getRankedGlobal_sorted_correspond expABC (globalFromLocal fmABC data2)
    (rankValuesRow (globalFromLocal fmABC data2))
    (rankNamesRow expABC.featureNames (globalFromLocal fmABC data2)) rfl rfl rfl

/-- Witness for C3: the shape-mismatch characterization holds on the
concrete example inputs. -/
theorem createGlobal_shape_fail_fast_witness :
    (createGlobal (.twoD data2) fmABC none = .error .ShapeMismatchError ↔
      ¬ shapeOk (.twoD data2) fmABC none) ∧
    ∀ e, createGlobal (.twoD data2) fmABC none = .ok e →
      ∃ rv, e.getRankedGlobalValues = .ok rv ∧ rv.length = fmABC.groups.length :=
  createGlobal_shape_fail_fast (.twoD data2) fmABC none

/-- Witness for C4: the per-class support facts hold on the concrete 2-D
and 3-D example Explanations. -/
theorem perClass_query_requires_class_dim_witness :
    expABC.getRankedPerClassValues = .error .UnsupportedOperationError ∧
    expABC.getRankedPerClassNames = .error .UnsupportedOperationError ∧
    ∃ pcs, expABC3.perClassImportances = some pcs ∧ pcs.length = data3.length ∧
      expABC3.getRankedPerClassValues = .ok (pcs.map rankValuesRow) ∧
      expABC3.getRankedPerClassNames = .ok (pcs.map (rankNamesRow expABC3.featureNames)) ∧
      ∀ cls ∈ pcs.map rankValuesRow, cls.Pairwise (fun a b => |b| ≤ |a|) :=
  perClass_query_requires_class_dim fmABC none data2 data3 expABC expABC3 rfl rfl

/-- Witness for C5: the rank-sequence properties hold on the concrete
example Explanation. -/
theorem globalImportanceRank_is_rank_witness :
    ((List.range (globalFromLocal fmABC data2).length).map
      (fun i => (rankOrder (globalFromLocal fmABC data2)).indexOf i + 1)).length =
        (globalFromLocal fmABC data2).length ∧
    List.Perm
      ((List.range (globalFromLocal fmABC data2).length).map
        (fun i => (rankOrder (globalFromLocal fmABC data2)).indexOf i + 1))
      ((List.range (globalFromLocal fmABC data2).length).map (fun r => r + 1)) ∧
    ∀ i, i < (globalFromLocal fmABC data2).length →
      1 ≤ ((List.range (globalFromLocal fmABC data2).length).map
        (fun i => (rankOrder (globalFromLocal fmABC data2)).indexOf i + 1)).getD i 0 ∧
      ((List.range (globalFromLocal fmABC data2).length).map
        (fun i => (rankOrder (globalFromLocal fmABC data2)).indexOf i + 1)).getD i 0 ≤
        (globalFromLocal fmABC data2).length ∧
      (rankOrder (globalFromLocal fmABC data2)).getD
        (((List.range (globalFromLocal fmABC data2).length).map
          (fun i => (rankOrder (globalFromLocal fmABC data2)).indexOf i + 1)).getD i 0 - 1)
        (globalFromLocal fmABC data2).length = i :=
  globalImportanceRank_is_rank expABC (globalFromLocal fmABC data2) _ rfl rfl

/-- Witness for C6: the partition invariant and failure characterization
hold on the concrete A, B, C transformation description. -/
theorem buildFeatureMap_partition_invariant_witness :
    (∀ fm, buildFeatureMap ["A", "B", "C"] [("A", 1), ("B", 1), ("C", 1)] 3 = .ok fm →
      (fm.groups.map (fun g => g.indices)).flatten = List.range fm.totalWidth ∧
      fm.totalWidth = 3) ∧
    ((∃ nm ∈ ["A", "B", "C"],
        nm ∉ ([("A", 1), ("B", 1), ("C", 1)] : List (String × ℕ)).map Prod.fst) →
      buildFeatureMap ["A", "B", "C"] [("A", 1), ("B", 1), ("C", 1)] 3 =
        .error .ConfigurationError) ∧
    ((([("A", 1), ("B", 1), ("C", 1)] : List (String × ℕ)).map Prod.snd).sum ≠ 3 →
      buildFeatureMap ["A", "B", "C"] [("A", 1), ("B", 1), ("C", 1)] 3 =
        .error .ConfigurationError) :=
  buildFeatureMap_partition_invariant ["A", "B", "C"] [("A", 1), ("B", 1), ("C", 1)] 3

/-- Witness for C8: the count invariants hold on the concrete example
adapter call. -/
theorem createGlobal_counts_witness :
    expABC.featureNames.length = fmABC.groups.length ∧
    (∃ gv, expABC.globalImportances = some gv ∧ gv.length = fmABC.groups.length) ∧
    ∃ rv rn, expABC.getRankedGlobalValues = .ok rv ∧ expABC.getRankedGlobalNames = .ok rn ∧
      rv.length = fmABC.groups.length ∧ rn.length = fmABC.groups.length :=
  createGlobal_counts data2 fmABC none expABC rfl

/-- Witness for C9: determinism of the ranked global query on the concrete
example adapter call. -/
theorem getRankedGlobalValues_deterministic_witness :
    expABC.getRankedGlobalValues = expABC.getRankedGlobalValues ∧
    expABC.getRankedGlobalValues = expABC.getRankedGlobalValues :=
  getRankedGlobalValues_deterministic (.twoD data2) fmABC none expABC expABC rfl rfl

/-- Witness for C10: the local component of the concrete example global
Explanation is populated with one ranked row per instance. -/
theorem createGlobal_populates_local_witness :
    (∀ data, RawAttribution.twoD data2 = .twoD data →
      ∃ rows nrows, expABC.getRankedLocalValues = .ok (.perInstance rows) ∧
        expABC.getRankedLocalNames = .ok (.perInstance nrows) ∧
        rows.length = data.length ∧ nrows.length = data.length) ∧
    (∀ data, RawAttribution.twoD data2 = .threeD data →
      ∃ cls ncls, expABC.getRankedLocalValues = .ok (.perClassInstance cls) ∧
        expABC.getRankedLocalNames = .ok (.perClassInstance ncls) ∧
        cls.length = data.length ∧ ncls.length = data.length ∧
        (∀ k, k < data.length → (cls.getD k []).length = (data.getD k []).length) ∧
        (∀ k, k < data.length → (ncls.getD k []).length = (data.getD k []).length)) :=
  createGlobal_populates_local (.twoD data2) fmABC none expABC rfl

end InterpretCommunity
